import Mathlib

/-!
Shallow embedding of the msibi-flow repository (src/init.py and
src/project.py): the parameter-space expansion (`get_parameters` /
`itertools.product`), the statepoint construction (`dict(zip(names,
params))`), and the `optimize` operation that assembles an MSIBI
optimization problem (states, pairs, bonds, angles) from a job's
statepoint and document and launches the external runner.

Statepoint values are dynamic Python data (floats, ints, bools, None,
strings, nested lists/dicts); they are modelled by the inductive `Value`.
Dictionaries are association lists. Fallible accesses (missing dict keys,
missing statepoint attributes, Python's unbound-local error) are modelled
with `Except Err`.
-/

namespace MsibiFlow

/-- Dynamic values appearing in statepoints and job documents: numbers
(floats and ints are both rationals here), strings, booleans, Python's
`None`, lists, and dictionaries (association lists). -/
inductive Value where
  | num  (q : ℚ)
  | str  (s : String)
  | bool (b : Bool)
  | null
  | list (vs : List Value)
  | dict (kvs : List (String × Value))

/-- A Python dict with string keys, as an association list. -/
abbrev Dict := List (String × Value)

/-- First binding of key `k` in dict `d` (Python `d.get(k)` /
`k in d.keys()`). -/
def dget (d : Dict) (k : String) : Option Value :=
  match d with
  | [] => none
  | (k', v) :: rest => if k' = k then some v else dget rest k

/-- Python truthiness of a value (used by the `completed` label on the
result of `job.doc.get("done")`). -/
def truthy : Option Value → Bool
  | none => false
  | some Value.null => false
  | some (Value.bool b) => b
  | some (Value.num q) => decide (q ≠ 0)
  | some (Value.str s) => decide (s ≠ "")
  | some (Value.list []) => false
  | some (Value.list (_ :: _)) => true
  | some (Value.dict []) => false
  | some (Value.dict (_ :: _)) => true

/-- Python `v == "s"` where `"s"` is a string literal: true exactly when
`v` is that string (a non-string compared to a string is unequal). -/
def Value.eqStr : Value → String → Bool
  | Value.str t, s => t = s
  | _, _ => false

/-! ## src/init.py : parameter-space expansion -/

/-- `itertools.product` over a list of candidate lists: all combinations,
one element per input list, leftmost parameter varying slowest. -/
def product {α : Type _} : List (List α) → List (List α)
  | [] => [[]]
  | l :: ls => l.flatMap (fun x => (product ls).map (fun c => x :: c))

/-- The ordered parameter table built by `get_parameters` in src/init.py:
each parameter name with its literal candidate-value list.  Note the
`integrator` and `integrator_kwargs` lists are empty in the source. -/
def parameters : List (String × List Value) :=
  [ ("potential_cutoff", [Value.num 5]),
    ("num_rdf_points", [Value.num 101]),
    ("num_rdf_frames", [Value.num 5]),
    ("smooth_rdf", [Value.bool true]),
    ("rdf_exclude_bonded", [Value.bool false]),
    ("r_switch", [Value.null]),
    ("integrator", []),
    ("integrator_kwargs", []),
    ("dt", [Value.num (1/1000)]),
    ("gsd_period", [Value.num 1000]),
    ("initial_potential", [Value.str "mie"]),
    ("iterations", [Value.num 20]),
    ("n_steps", [Value.num 1000000]),
    ("states", [Value.list [Value.dict [], Value.dict [], Value.dict []]]),
    ("pairs", [Value.list [Value.dict [], Value.dict [], Value.dict []]]),
    ("bonds", [Value.list [Value.dict [], Value.dict [], Value.dict []]]),
    ("angles", [Value.list [Value.dict [], Value.dict [], Value.dict []]]) ]

/-- `get_parameters()` returns the list of parameter names and the full
Cartesian product of the candidate lists. -/
def get_parameters : List String × List (List Value) :=
  (parameters.map Prod.fst, product (parameters.map Prod.snd))

/-- The statepoints created by `main()`: `dict(zip(param_names, params))`
for each combination. -/
def statepoints : List Dict :=
  get_parameters.2.map (fun params => get_parameters.1.zip params)

/-! ## src/project.py : the `optimize` operation -/

/-- Failures during the `optimize` operation.  `keyError k` is Python's
`KeyError` on `d[k]`; `attrError k` is the `AttributeError` raised by
`job.sp.k` / `job.doc.k` when the field is undefined; `unboundLocal x`
is Python's `UnboundLocalError` on reading a local variable `x` that no
branch assigned; `stateResolutionError p` is the failure of constructing
a State whose target trajectory `p` does not exist (the spec's
`StateResolutionError`); `runError` is a failure raised by the external
`optimize_pairs` call; `typeError` is a Python `TypeError` on a value of
the wrong shape. -/
inductive Err where
  | keyError (k : String)
  | attrError (k : String)
  | unboundLocal (x : String)
  | stateResolutionError (p : List String)
  | runError
  | typeError (s : String)

/-- Attribute-style access `job.sp.k` / `job.doc.k`: `AttributeError`
when the key is undefined. -/
def attrGet (d : Dict) (k : String) : Except Err Value :=
  match dget d k with
  | some v => Except.ok v
  | none => Except.error (Err.attrError k)

/-- Subscript access `d[k]`: `KeyError` when the key is missing. -/
def dGetE (d : Dict) (k : String) : Except Err Value :=
  match dget d k with
  | some v => Except.ok v
  | none => Except.error (Err.keyError k)

/-- Iterating a value as a Python list. -/
def asList : Value → Except Err (List Value)
  | Value.list vs => Except.ok vs
  | _ => Except.error (Err.typeError "not a list")

/-- Using a value as a Python dict. -/
def asDict : Value → Except Err Dict
  | Value.dict kvs => Except.ok kvs
  | _ => Except.error (Err.typeError "not a dict")

/-- Using a value as a Python string. -/
def asStr : Value → Except Err String
  | Value.str s => Except.ok s
  | _ => Except.error (Err.typeError "not a str")

/-- A filesystem path as a list of components. -/
abbrev Path := List String

/-- Path normalization as performed by `os.path.abspath`: a `".."`
component removes the preceding component.  `acc` holds the processed
components in reverse. -/
def normComp (acc : Path) : Path → Path
  | [] => acc.reverse
  | c :: rest => if c = ".." then normComp acc.tail rest else normComp (c :: acc) rest

/-- The target-trajectory path computed in the state loop:
`os.path.abspath(os.path.join(job.ws, "..", "..", rel))`. -/
def resolveTraj (ws : Path) (rel : String) : Path :=
  normComp [] (ws ++ [".."] ++ [".."] ++ [rel])

/-- An initial pair potential: either the value supplied explicitly under
the pair entry's `"potential"` key, or one derived by the external
`morse(opt.pot_r, 1.0, 1.0)` / `mie(job.sp.potential_cutoff, 1.0, 1.0)`
calls (the constructors record the arguments those calls receive). -/
inductive Potential where
  | given (v : Value)
  | morse (potR : Value) (depth width : ℚ)
  | mie (rcut : Value) (depth expo : ℚ)

/-- A `State(...)` descriptor as constructed in the state loop. -/
structure StateD where
  name : Value
  kT : Value
  traj_file : Path
  alpha : Value

/-- A `Pair(...)` descriptor as constructed in the pair loop. -/
structure PairD where
  type1 : Value
  type2 : Value
  potential : Potential
  head_correction_form : Value

/-- A `Bond(...)` descriptor; `harmonic` records the `(k, r0)` arguments
of `set_harmonic` when it was called. -/
structure BondD where
  type1 : Value
  type2 : Value
  harmonic : Option (Value × Value)

/-- An `Angle(...)` descriptor; `harmonic` records the `(k, theta0)`
arguments of `set_harmonic` when it was called. -/
structure AngleD where
  type1 : Value
  type2 : Value
  type3 : Value
  harmonic : Option (Value × Value)

/-- The hyperparameters passed to the `MSIBI(...)` constructor. -/
structure Hyper where
  integrator : Value
  integrator_kwargs : Value
  dt : Value
  gsd_period : Value
  n_iterations : Value
  n_steps : Value

/-- The external MSIBI optimizer's accumulated lists, fed by `add_state`,
`add_pair` and `add_bond`.  It also has an `angles` list that an
`add_angle` call would extend; src/project.py never calls `add_angle`,
so nothing in the embedding appends to it. -/
structure Opt where
  states : List StateD
  pairs : List PairD
  bonds : List BondD
  angles : List AngleD

/-- The keyword arguments of the `opt.optimize_pairs(...)` call, read
from the statepoint in source order. -/
structure RunArgs where
  max_frames : Value
  rdf_cutoff : Value
  r_min : Value
  r_switch : Value
  n_rdf_points : Value
  smooth_rdfs : Value
  rdf_exclude_bonded : Value

/-- The external world: the optimizer's radial grid `opt.pot_r` read
during pair assembly, whether `optimize_pairs` returns successfully, and
the `opt.dr` / `opt.pot_r` artifacts read afterwards. -/
structure Ext where
  potR : Value
  runOk : Bool
  drOut : Value
  potROut : Value

/-- Everything the operation has produced when `optimize_pairs` returns:
the hyperparameters, the optimizer's lists, the Angle descriptors that
were built (and then discarded) by the angle loop, and the arguments of
the `optimize_pairs` call. -/
structure Assembled where
  hyper : Hyper
  opt : Opt
  builtAngles : List AngleD
  runArgs : RunArgs

/-- The `MSIBI(...)` construction: reads `job.sp.integrator`,
`job.doc.integrator_kwargs`, `job.sp.dt`, `job.sp.gsd_period`,
`job.sp.iterations`, `job.sp.n_steps`, in that order. -/
def mkMSIBI (sp doc : Dict) : Except Err Hyper := do
  let integrator ← attrGet sp "integrator"
  let ikw ← attrGet doc "integrator_kwargs"
  let dtv ← attrGet sp "dt"
  let gsd ← attrGet sp "gsd_period"
  let iters ← attrGet sp "iterations"
  let nsteps ← attrGet sp "n_steps"
  Except.ok { integrator := integrator, integrator_kwargs := ikw, dt := dtv,
              gsd_period := gsd, n_iterations := iters, n_steps := nsteps }

/-- The state loop: for each entry, read `target_trajectory`, resolve the
path two levels above the workspace, then construct the State (reading
`name`, `kT`, `alpha`).  The external State constructor requires the
target trajectory to exist.  Modelled from the spec: the existence check
is not in src/project.py (it lives in the external State constructor);
the spec's StateDescriptor invariant makes it an assembly precondition
failing with `StateResolutionError`. -/
def buildStates (fs : List Path) (ws : Path) : List Value → Except Err (List StateD)
  | [] => Except.ok []
  | v :: rest => do
      let d ← asDict v
      let tt ← dGetE d "target_trajectory"
      let rel ← asStr tt
      let p := resolveTraj ws rel
      let nm ← dGetE d "name"
      let kT ← dGetE d "kT"
      let alpha ← dGetE d "alpha"
      if p ∈ fs then do
        let ss ← buildStates fs ws rest
        Except.ok ({ name := nm, kT := kT, traj_file := p, alpha := alpha } :: ss)
      else
        Except.error (Err.stateResolutionError p)

/-- The pair loop.  `prev` is the current value of the Python local
variable `potential` (None before the first iteration).  If the entry
has a `"potential"` key it is used verbatim; otherwise the family
selector `job.sp.initial_potential` is consulted: `"morse"` and `"mie"`
assign a derived potential, while any other family falls through the
`if`/`elif` without assigning, leaving `potential` bound to whatever the
previous iteration left (an `UnboundLocalError` when it was never
assigned).  The `Pair(...)` call then reads `type1`, `type2`, the local
`potential`, and `job.sp.head_correction`, in that order. -/
def buildPairs (sp : Dict) (potR : Value) :
    List Value → Option Potential → Except Err (List PairD)
  | [], _ => Except.ok []
  | v :: rest, prev => do
      let d ← asDict v
      let pot? ←
        match dget d "potential" with
        | some pv => Except.ok (some (Potential.given pv))
        | none => do
            let fam ← attrGet sp "initial_potential"
            if Value.eqStr fam "morse" then
              Except.ok (some (Potential.morse potR 1 1))
            else if Value.eqStr fam "mie" then do
              let c ← attrGet sp "potential_cutoff"
              Except.ok (some (Potential.mie c 1 1))
            else
              Except.ok prev
      let t1 ← dGetE d "type1"
      let t2 ← dGetE d "type2"
      let pot ← match pot? with
        | some p => Except.ok p
        | none => Except.error (Err.unboundLocal "potential")
      let hc ← attrGet sp "head_correction"
      let ps ← buildPairs sp potR rest pot?
      Except.ok ({ type1 := t1, type2 := t2, potential := pot,
                   head_correction_form := hc } :: ps)

/-- The effect of the conditional `set_harmonic(k, r0)` call on a new
Bond: the `(k, r0)` parameters exactly when the entry's `form` equals
`"harmonic"`, nothing otherwise. -/
def bondHarmonic (d : Dict) (form : Value) : Except Err (Option (Value × Value)) :=
  if Value.eqStr form "harmonic" then do
    let k ← dGetE d "k"
    let r0 ← dGetE d "r0"
    Except.ok (some (k, r0))
  else
    Except.ok none

/-- The bond loop: each entry yields one Bond with `type1`/`type2`;
`set_harmonic(k, r0)` is called exactly when the entry's `form` equals
`"harmonic"`. -/
def buildBonds : List Value → Except Err (List BondD)
  | [] => Except.ok []
  | v :: rest => do
      let d ← asDict v
      let t1 ← dGetE d "type1"
      let t2 ← dGetE d "type2"
      let form ← dGetE d "form"
      let harm ← bondHarmonic d form
      let bs ← buildBonds rest
      Except.ok ({ type1 := t1, type2 := t2, harmonic := harm } :: bs)

/-- The effect of the conditional `set_harmonic(k, theta0)` call on a new
Angle: the `(k, theta0)` parameters exactly when the entry's `form`
equals `"harmonic"`, nothing otherwise. -/
def angleHarmonic (d : Dict) (form : Value) : Except Err (Option (Value × Value)) :=
  if Value.eqStr form "harmonic" then do
    let k ← dGetE d "k"
    let th ← dGetE d "theta0"
    Except.ok (some (k, th))
  else
    Except.ok none

/-- The angle loop: each entry yields one Angle with
`type1`/`type2`/`type3`; `set_harmonic(k, theta0)` is called exactly when
the entry's `form` equals `"harmonic"`.  The constructed Angles are never
passed to the optimizer (there is no `add_angle` call in the source). -/
def buildAngles : List Value → Except Err (List AngleD)
  | [] => Except.ok []
  | v :: rest => do
      let d ← asDict v
      let t1 ← dGetE d "type1"
      let t2 ← dGetE d "type2"
      let t3 ← dGetE d "type3"
      let form ← dGetE d "form"
      let harm ← angleHarmonic d form
      let as_ ← buildAngles rest
      Except.ok ({ type1 := t1, type2 := t2, type3 := t3, harmonic := harm } :: as_)

/-- The `if job.sp.bonds is not None:` / `if job.sp.angles is not None:`
gates: when the declared list is `None` the loop body is skipped and no
descriptors are built; otherwise the value is iterated by the given
loop. -/
def ifNotNull {α : Type _} (loop : List Value → Except Err (List α)) :
    Value → Except Err (List α)
  | Value.null => Except.ok []
  | v => do
      let entries ← asList v
      loop entries

/-- The keyword arguments of `opt.optimize_pairs(...)`, read from the
statepoint in source order: `num_rdf_frames`, `potential_cutoff`,
`r_min`, `r_switch`, `num_rdf_points`, `smooth_rdf`,
`rdf_exclude_bonded`.  `job.sp.r_min` raises `AttributeError` when the
statepoint has no such field. -/
def mkRunArgs (sp : Dict) : Except Err RunArgs := do
  let mf ← attrGet sp "num_rdf_frames"
  let rc ← attrGet sp "potential_cutoff"
  let rmin ← attrGet sp "r_min"
  let rsw ← attrGet sp "r_switch"
  let np ← attrGet sp "num_rdf_points"
  let sm ← attrGet sp "smooth_rdf"
  let ex ← attrGet sp "rdf_exclude_bonded"
  Except.ok { max_frames := mf, rdf_cutoff := rc, r_min := rmin, r_switch := rsw,
              n_rdf_points := np, smooth_rdfs := sm, rdf_exclude_bonded := ex }

/-- The body of the `optimize(job)` operation after `job.doc["done"] =
False`: construct the MSIBI optimizer, build the states, pairs, bonds
(skipped when `job.sp.bonds is None`) and angles (skipped when
`job.sp.angles is None`; the built Angles are never added to the
optimizer), then call `optimize_pairs`.  Returns the assembled problem
when the external run succeeds. -/
def optimizeCore (ext : Ext) (fs : List Path) (ws : Path) (sp doc : Dict) :
    Except Err Assembled := do
  let hyper ← mkMSIBI sp doc
  let statesV ← attrGet sp "states"
  let stateEntries ← asList statesV
  let states ← buildStates fs ws stateEntries
  let pairsV ← attrGet sp "pairs"
  let pairEntries ← asList pairsV
  let pairs ← buildPairs sp ext.potR pairEntries none
  let bondsV ← attrGet sp "bonds"
  let bonds ← ifNotNull buildBonds bondsV
  let anglesV ← attrGet sp "angles"
  let builtAngles ← ifNotNull buildAngles anglesV
  let runArgs ← mkRunArgs sp
  if ext.runOk then
    Except.ok { hyper := hyper,
                opt := { states := states, pairs := pairs, bonds := bonds,
                         angles := [] },
                builtAngles := builtAngles, runArgs := runArgs }
  else
    Except.error Err.runError

/-- The whole `optimize(job)` operation, returning the chronological log
of `job.doc` writes together with the outcome.  The source writes
`done = False` first; on any failure nothing further is written; after a
successful `optimize_pairs` it writes `dr`, `pot_r`, and finally
`done = True`. -/
def optimize (ext : Ext) (fs : List Path) (ws : Path) (sp doc : Dict) :
    List (String × Value) × Except Err Assembled :=
  match optimizeCore ext fs ws sp doc with
  | Except.error e => ([("done", Value.bool false)], Except.error e)
  | Except.ok a =>
      ([("done", Value.bool false), ("dr", ext.drOut), ("pot_r", ext.potROut),
        ("done", Value.bool true)], Except.ok a)

/-- The `completed` label: truthiness of `job.doc.get("done")`. -/
def completed (doc : Dict) : Bool := truthy (dget doc "done")

/-- Modelled from the spec: FlowProject's post-condition semantics for
`@MyProject.post(completed)` (the flow library is external) — the
`optimize` operation is eligible to run exactly when its post-condition
label is not yet satisfied, so a job whose document already reports
completion is skipped on re-invocation. -/
def eligible (doc : Dict) : Bool := !(completed doc)

/-! ## Concrete instances

Inputs used to exercise the embedding at explicit values: a project root
`["proj"]` whose workspace directory holds one job, a reference
trajectory `proj/ref.gsd` on disk, an external runner that succeeds, and
several concrete statepoints. -/

/-- An external world whose `optimize_pairs` call succeeds. -/
def extOk : Ext :=
  { potR := Value.null, runOk := true, drOut := Value.num 1,
    potROut := Value.list [] }

/-- The workspace directory of one job. -/
def wsJob : Path := ["proj", "workspace", "job1"]

/-- The files on disk: only the reference trajectory `proj/ref.gsd`. -/
def fsRef : List Path := [["proj", "ref.gsd"]]

/-- A job document carrying the `integrator_kwargs` override. -/
def docOk : Dict := [("integrator_kwargs", Value.dict [])]

/-- A state entry pointing at the existing reference trajectory. -/
def stateA : Value :=
  Value.dict [("name", Value.str "A"), ("kT", Value.num 1),
    ("target_trajectory", Value.str "ref.gsd"), ("alpha", Value.num 1)]

/-- A pair entry supplying an explicit potential. -/
def pairPot7 : Value :=
  Value.dict [("type1", Value.str "A"), ("type2", Value.str "A"),
    ("potential", Value.num 7)]

/-- A pair entry with no explicit potential. -/
def pairAB : Value :=
  Value.dict [("type1", Value.str "A"), ("type2", Value.str "B")]

/-- The scalar part of a well-formed statepoint (every field the
`optimize` operation reads, except the interaction lists). -/
def spScalars : Dict :=
  [ ("potential_cutoff", Value.num 5),
    ("num_rdf_points", Value.num 101),
    ("num_rdf_frames", Value.num 5),
    ("smooth_rdf", Value.bool true),
    ("rdf_exclude_bonded", Value.bool false),
    ("r_switch", Value.null),
    ("integrator", Value.str "hoomd.md.integrate.nvt"),
    ("dt", Value.num (1/1000)),
    ("gsd_period", Value.num 1000),
    ("initial_potential", Value.str "mie"),
    ("iterations", Value.num 20),
    ("n_steps", Value.num 1000000),
    ("head_correction", Value.str "linear"),
    ("r_min", Value.num 0) ]

/-- A complete well-formed statepoint: one state, one explicit-potential
pair, bonds and angles declared absent. -/
def spOk : Dict :=
  spScalars ++
    [ ("states", Value.list [stateA]),
      ("pairs", Value.list [pairPot7]),
      ("bonds", Value.null),
      ("angles", Value.null) ]

/-- Like `spOk` but with one harmonic angle entry declared. -/
def spAngles : Dict :=
  spScalars ++
    [ ("states", Value.list [stateA]),
      ("pairs", Value.list [pairPot7]),
      ("bonds", Value.null),
      ("angles", Value.list [Value.dict
        [("type1", Value.str "A"), ("type2", Value.str "A"),
         ("type3", Value.str "A"), ("form", Value.str "harmonic"),
         ("k", Value.num 100), ("theta0", Value.num 110)]]) ]

/-- Like `spOk` but whose single state entry names a trajectory that does
not exist on disk. -/
def spMissing : Dict :=
  spScalars ++
    [ ("states", Value.list [Value.dict
        [("name", Value.str "A"), ("kT", Value.num 1),
         ("target_trajectory", Value.str "missing.gsd"),
         ("alpha", Value.num 1)]]),
      ("pairs", Value.list [pairPot7]),
      ("bonds", Value.null),
      ("angles", Value.null) ]

/-- A statepoint whose `initial_potential` family is neither `"morse"`
nor `"mie"`. -/
def spLJ : Dict :=
  [("initial_potential", Value.str "lj"),
   ("head_correction", Value.str "linear")]

/-- A statepoint selecting the `"morse"` family. -/
def spMorse : Dict :=
  [("initial_potential", Value.str "morse"),
   ("head_correction", Value.str "linear")]

/-! ## Helper lemmas -/

theorem sum_map_const {α : Type _} (l : List α) (n : ℕ) :
    (l.map (fun _ => n)).sum = l.length * n := by
  induction l with
  | nil => simp
  | cons a l ih => simp [ih, Nat.succ_mul, Nat.add_comm]

theorem flatMap_const_nil {α β : Type _} (l : List α) :
    (l.flatMap fun _ => ([] : List β)) = [] := by
  induction l with
  | nil => rfl
  | cons a l ih => simp [List.flatMap] at ih ⊢

/-- The expansion has exactly `∏ nᵢ` combinations. -/
theorem product_length {α : Type _} (ls : List (List α)) :
    (product ls).length = (ls.map List.length).prod := by
  induction ls with
  | nil => rfl
  | cons l ls ih =>
      rw [product, List.length_flatMap]
      simp only [Function.comp_def, List.length_map]
      rw [sum_map_const, ih, List.map_cons, List.prod_cons]

/-- Membership in the expansion: exactly the pointwise selections. -/
theorem mem_product {α : Type _} : ∀ {ls : List (List α)} {c : List α},
    c ∈ product ls ↔ List.Forall₂ (fun x l => x ∈ l) c ls := by
  intro ls
  induction ls with
  | nil =>
      intro c
      simp [product, List.forall₂_nil_right_iff]
  | cons l ls ih =>
      intro c
      simp only [product, List.mem_flatMap, List.mem_map]
      constructor
      · rintro ⟨x, hx, cc, hcc, rfl⟩
        exact List.Forall₂.cons hx (ih.mp hcc)
      · intro h
        cases h with
        | cons hx hcc => exact ⟨_, hx, _, ih.mpr hcc, rfl⟩

/-- Duplicate-free candidate lists expand to pairwise-distinct combinations. -/
theorem product_nodup {α : Type _} : ∀ {ls : List (List α)},
    (∀ l ∈ ls, l.Nodup) → (product ls).Nodup := by
  intro ls
  induction ls with
  | nil =>
      intro
      simp [product]
  | cons l ls ih =>
      intro h
      rw [product, List.nodup_flatMap]
      refine ⟨fun x _ => ?_, ?_⟩
      · exact (ih (fun l' hl' => h l' (List.mem_cons_of_mem _ hl'))).map
          List.cons_injective
      · have hl : l.Nodup := h l (List.mem_cons_self _ _)
        refine hl.imp ?_
        intro a b hab
        simp only [Function.onFun]
        intro c hca hcb
        simp only [List.mem_map] at hca hcb
        obtain ⟨ca, _, hca⟩ := hca
        obtain ⟨cb, _, hcb⟩ := hcb
        rw [← hca] at hcb
        exact hab (List.head_eq_of_cons_eq hcb).symm

/-- An empty candidate list silently collapses the whole expansion. -/
theorem product_of_mem_nil {α : Type _} : ∀ {ls : List (List α)},
    [] ∈ ls → product ls = [] := by
  intro ls
  induction ls with
  | nil => intro h; cases h
  | cons l ls ih =>
      intro h
      rcases List.mem_cons.mp h with h | h
      · rw [product, ← h]
        simp
      · rw [product, ih h]
        simp only [List.map_nil]
        exact flatMap_const_nil l

/-- A key absent from the declared names is absent from every zipped
statepoint. -/
theorem dget_zip_none : ∀ (names : List String) (vs : List Value) (k : String),
    k ∉ names → dget (names.zip vs) k = none := by
  intro names
  induction names with
  | nil => intros; rfl
  | cons n ns ih =>
      intro vs k hk
      cases vs with
      | nil => rfl
      | cons v vs =>
          simp only [List.zip_cons_cons, dget]
          rw [if_neg (fun h => hk (by rw [← h]; exact List.mem_cons_self _ _))]
          exact ih vs k (fun h => hk (List.mem_cons_of_mem _ h))

theorem ok_bind {α β : Type _} (a : α) (f : α → Except Err β) :
    (Except.ok a >>= f) = f a := rfl

theorem error_bind {α β : Type _} (e : Err) (f : α → Except Err β) :
    (Except.error e >>= f : Except Err β) = Except.error e := rfl

/-- Inversion of a successful monadic bind over `Except`. -/
theorem bind_ok_inv {α β : Type _} {x : Except Err α} {f : α → Except Err β}
    {b : β} (h : (x >>= f) = Except.ok b) :
    ∃ a, x = Except.ok a ∧ f a = Except.ok b := by
  cases x with
  | error e => exact absurd h (by rw [error_bind]; intro hh; cases hh)
  | ok a => exact ⟨a, rfl, h⟩

/-- Processing a `".."`-free prefix just shifts it into the accumulator. -/
theorem normComp_append : ∀ (l : Path) (acc r : Path), ".." ∉ l →
    normComp acc (l ++ r) = normComp (l.reverse ++ acc) r := by
  intro l
  induction l with
  | nil => intros; rfl
  | cons c l ih =>
      intro acc r hc
      have hcne : c ≠ ".." := fun h => hc (h ▸ List.mem_cons_self _ _)
      simp only [List.cons_append, normComp, if_neg hcne, List.append_eq]
      rw [ih (c :: acc) r (fun h => hc (List.mem_cons_of_mem _ h))]
      simp

/-- The path computed in the state loop is the declared relative path
under the directory two levels above the workspace. -/
theorem resolveTraj_two_up (root : Path) (a b : String) (rel : String)
    (hroot : ".." ∉ root) (ha : a ≠ "..") (hb : b ≠ "..") (hrel : rel ≠ "..") :
    resolveTraj (root ++ [a, b]) rel = root ++ [rel] := by
  rw [resolveTraj]
  have hnotin : ".." ∉ root ++ [a, b] := by
    intro h
    rcases List.mem_append.mp h with h | h
    · exact hroot h
    · rcases List.mem_cons.mp h with h | h
      · exact ha h.symm
      · rcases List.mem_cons.mp h with h | h
        · exact hb h.symm
        · cases h
  have := normComp_append (root ++ [a, b]) [] ([".."] ++ [".."] ++ [rel]) hnotin
  simp only [List.append_assoc] at this ⊢
  rw [this]
  simp only [List.append_nil, List.reverse_append]
  simp [normComp, hrel]

/-- Every successful bond loop yields exactly one descriptor per entry. -/
theorem buildBonds_length : ∀ (entries : List Value) (bs : List BondD),
    buildBonds entries = Except.ok bs → bs.length = entries.length := by
  intro entries
  induction entries with
  | nil =>
      intro bs h
      cases h
      rfl
  | cons v rest ih =>
      intro bs h
      rw [buildBonds] at h
      obtain ⟨d, _, h⟩ := bind_ok_inv h
      obtain ⟨t1, _, h⟩ := bind_ok_inv h
      obtain ⟨t2, _, h⟩ := bind_ok_inv h
      obtain ⟨form, _, h⟩ := bind_ok_inv h
      obtain ⟨harm, _, h⟩ := bind_ok_inv h
      obtain ⟨bs', hbs', h⟩ := bind_ok_inv h
      cases h
      simp [ih bs' hbs']

/-- A value that compares equal to a string literal is that string. -/
theorem eqStr_true {v : Value} {s : String} (h : Value.eqStr v s = true) :
    v = Value.str s := by
  cases v <;> simp [Value.eqStr] at h
  subst h
  rfl

/-! ## Claims -/

/-- C4, counterexample: the claim says an empty candidate list is flagged
as a configuration error rather than silently producing zero statepoints;
but the shipped parameter table itself has an empty candidate list (the
`integrator` parameter, position 6), and `get_parameters` returns
normally with zero combinations — `main` would create zero jobs, and no
error of any kind is signalled (the expansion has no error outcome at
all). -/
theorem c4_counterexample :
    (parameters.map Prod.snd)[6]? = some [] ∧
    get_parameters.2 = [] ∧ statepoints = [] :=
  ⟨rfl, rfl, rfl⟩

/-- C4 (amended): if any parameter's candidate-value list is empty, the
expansion silently produces zero statepoints (and therefore zero jobs);
no `ConfigurationError` is raised — the expansion is a total function
with no error outcome.  In particular the shipped parameter space
expands to zero statepoints. -/
theorem c4_empty_list_silent :
    (∀ (α : Type) (ls : List (List α)), [] ∈ ls → product ls = []) ∧
    [] ∈ parameters.map Prod.snd ∧
    get_parameters.2 = [] ∧
    statepoints = [] := by
  refine ⟨fun α ls h => product_of_mem_nil h, ?_, rfl, rfl⟩
  simp [parameters]

/-- C4, witness: the amended claim evaluated on a two-parameter space
whose second candidate list is empty. -/
theorem c4_witness : product [[(1 : ℕ)], []] = [] :=
  c4_empty_list_silent.1 ℕ [[1], []] (by simp)

/-- C5, counterexample: with a single parameter whose (non-empty)
candidate list contains a duplicated value, the expansion has the
claimed length `n₁ = 2` but its two combinations are equal, so the
statepoints are not "each a distinct combination" as the claim states. -/
theorem c5_counterexample :
    ([(1 : ℕ), 1] ≠ []) ∧
    (product [[(1 : ℕ), 1]]).length = 2 ∧
    ¬ (product [[(1 : ℕ), 1]]).Nodup :=
  ⟨by decide, rfl, by decide⟩

/-- C5 (amended): for an ordered mapping of parameter names to non-empty
candidate lists that are each duplicate-free, the expansion has exactly
`∏ nᵢ` combinations, pairwise distinct, each taking one value per
parameter in declared order, and zipping the declared names with any
combination reconstructs the statepoint (names and values recovered
positionally). -/
theorem c5_cartesian_expansion {α : Type _} (ps : List (String × List α))
    (_hne : ∀ l ∈ ps.map Prod.snd, l ≠ [])
    (hnd : ∀ l ∈ ps.map Prod.snd, l.Nodup) :
    (product (ps.map Prod.snd)).length = ((ps.map Prod.snd).map List.length).prod ∧
    (product (ps.map Prod.snd)).Nodup ∧
    ∀ c ∈ product (ps.map Prod.snd),
      List.Forall₂ (fun x l => x ∈ l) c (ps.map Prod.snd) ∧
      c.length = ps.length ∧
      ((ps.map Prod.fst).zip c).map Prod.fst = ps.map Prod.fst ∧
      ((ps.map Prod.fst).zip c).map Prod.snd = c := by
  refine ⟨product_length _, product_nodup hnd, ?_⟩
  intro c hc
  have hf := mem_product.mp hc
  have hlen : c.length = (ps.map Prod.snd).length := hf.length_eq
  rw [List.length_map] at hlen
  refine ⟨hf, hlen, ?_, ?_⟩
  · exact List.map_fst_zip _ _ (by simp [hlen])
  · exact List.map_snd_zip _ _ (by simp [hlen])

/-- C5, witness: the amended claim evaluated on the concrete space
`a ∈ [1, 2]`, `b ∈ [3]`: two distinct combinations of the right shape. -/
theorem c5_witness :
    (product ([("a", [1, 2]), ("b", [3])].map Prod.snd)).length = 2 ∧
    (product ([("a", [1, 2]), ("b", [3])].map Prod.snd)).Nodup := by
  have h := c5_cartesian_expansion [("a", [1, 2]), ("b", [3])]
    (by decide) (by decide)
  exact ⟨h.1, h.2.1⟩

/-- C1, counterexample: with `initial_potential = "lj"` (neither
`"morse"` nor `"mie"`), a pair entry with no explicit potential does NOT
raise any `UnknownPotentialFamilyError`-like failure: when it is the
first pair the assembler fails with Python's unbound-local error on
`potential`, and when a previous pair already assigned the local
`potential` the assembler silently falls through and reuses that stale
value — assembly succeeds, giving the second pair the first pair's
potential. -/
theorem c1_counterexample :
    buildPairs spLJ Value.null [pairAB] none =
      Except.error (Err.unboundLocal "potential") ∧
    buildPairs spLJ Value.null [pairPot7, pairAB] none =
      Except.ok
        [{ type1 := Value.str "A", type2 := Value.str "A",
           potential := Potential.given (Value.num 7),
           head_correction_form := Value.str "linear" },
         { type1 := Value.str "A", type2 := Value.str "B",
           potential := Potential.given (Value.num 7),
           head_correction_form := Value.str "linear" }] :=
  ⟨rfl, rfl⟩

/-- C1 (amended): for a pair entry with no explicit `potential` key,
family `"morse"` derives a Morse potential at unit depth/width over the
optimizer's radial grid, and family `"mie"` derives a Mie potential from
the statepoint's `potential_cutoff` at unit depth/exponent; but any
other family value raises no error of its own: the assembler falls
through with the local `potential` unassigned, failing with an
unbound-local error on the first such pair and silently reusing the
previous pair's potential on later pairs. -/
theorem c1_family_fallthrough (sp : Dict) (potR : Value) (d : Dict)
    (prev : Option Potential) (fam t1 t2 hc : Value)
    (hpot : dget d "potential" = none)
    (hfam : dget sp "initial_potential" = some fam)
    (ht1 : dget d "type1" = some t1) (ht2 : dget d "type2" = some t2)
    (hhc : dget sp "head_correction" = some hc) :
    (Value.eqStr fam "morse" = true →
      buildPairs sp potR [Value.dict d] prev =
        Except.ok [{ type1 := t1, type2 := t2,
                     potential := Potential.morse potR 1 1,
                     head_correction_form := hc }]) ∧
    (∀ c, Value.eqStr fam "mie" = true →
      dget sp "potential_cutoff" = some c →
      buildPairs sp potR [Value.dict d] prev =
        Except.ok [{ type1 := t1, type2 := t2,
                     potential := Potential.mie c 1 1,
                     head_correction_form := hc }]) ∧
    (Value.eqStr fam "morse" = false → Value.eqStr fam "mie" = false →
      buildPairs sp potR [Value.dict d] none =
        Except.error (Err.unboundLocal "potential") ∧
      ∀ p, buildPairs sp potR [Value.dict d] (some p) =
        Except.ok [{ type1 := t1, type2 := t2, potential := p,
                     head_correction_form := hc }]) := by
  refine ⟨?_, ?_, ?_⟩
  · intro hm
    have := eqStr_true hm
    subst this
    have hmo : Value.eqStr (Value.str "morse") "morse" = true := by decide
    simp [buildPairs, asDict, dGetE, attrGet, hpot, hfam, ht1, ht2, hhc, hmo,
      ok_bind]
  · intro c hmi hcut
    have := eqStr_true hmi
    subst this
    have hmo : Value.eqStr (Value.str "mie") "morse" = false := by decide
    have hmi' : Value.eqStr (Value.str "mie") "mie" = true := by decide
    simp [buildPairs, asDict, dGetE, attrGet, hpot, hfam, ht1, ht2, hhc, hcut,
      hmo, hmi', ok_bind]
  · intro hmo hmi
    constructor
    · simp [buildPairs, asDict, dGetE, attrGet, hpot, hfam, ht1, ht2, hhc,
        hmo, hmi, ok_bind, error_bind]
    · intro p
      simp [buildPairs, asDict, dGetE, attrGet, hpot, hfam, ht1, ht2, hhc,
        hmo, hmi, ok_bind, error_bind]

/-- C1, witness: the amended claim evaluated with the `"morse"` family on
a concrete pair entry. -/
theorem c1_witness :
    buildPairs spMorse Value.null [pairAB] none =
      Except.ok [{ type1 := Value.str "A", type2 := Value.str "B",
                   potential := Potential.morse Value.null 1 1,
                   head_correction_form := Value.str "linear" }] :=
  (c1_family_fallthrough spMorse Value.null
    [("type1", Value.str "A"), ("type2", Value.str "B")] none
    (Value.str "morse") (Value.str "A") (Value.str "B") (Value.str "linear")
    rfl rfl rfl rfl rfl).1 rfl

/-- C8: a pair entry that supplies an explicit potential under the
`"potential"` key is used verbatim — the assembled Pair descriptor wraps
exactly the supplied value, and no family-based derivation happens (the
statement holds for every statepoint, including one with no
`initial_potential` field at all). -/
theorem c8_explicit_potential_verbatim (sp : Dict) (potR : Value) (d : Dict)
    (rest : List Value) (prev : Option Potential) (pv t1 t2 hc : Value)
    (hpot : dget d "potential" = some pv)
    (ht1 : dget d "type1" = some t1) (ht2 : dget d "type2" = some t2)
    (hhc : dget sp "head_correction" = some hc) :
    buildPairs sp potR (Value.dict d :: rest) prev =
      (do
        let ps ← buildPairs sp potR rest (some (Potential.given pv))
        Except.ok ({ type1 := t1, type2 := t2, potential := Potential.given pv,
                     head_correction_form := hc } :: ps)) := by
  simp [buildPairs, asDict, dGetE, attrGet, hpot, ht1, ht2, hhc, ok_bind]

/-- C8, witness: a concrete pair entry carrying the explicit potential
`7` assembles to a Pair wrapping exactly that value. -/
theorem c8_witness :
    buildPairs spLJ Value.null [pairPot7] none =
      Except.ok [{ type1 := Value.str "A", type2 := Value.str "A",
                   potential := Potential.given (Value.num 7),
                   head_correction_form := Value.str "linear" }] := by
  have h := c8_explicit_potential_verbatim spLJ Value.null
    [("type1", Value.str "A"), ("type2", Value.str "A"),
     ("potential", Value.num 7)]
    [] none (Value.num 7) (Value.str "A") (Value.str "A")
    (Value.str "linear") rfl rfl rfl rfl
  exact h

/-- C9: `"head_correction"` is not among the parameter names declared by
`get_parameters`, so every statepoint zipped from those names lacks the
key; yet pair assembly reads `job.sp.head_correction` for every pair
entry, so on any statepoint without the field the pair loop hits the
undefined-field error — both for an entry with an explicit potential and
for an entry deriving its potential from the `"mie"` family. -/
theorem c9_head_correction_unguarded :
    ("head_correction" ∉ get_parameters.1) ∧
    (∀ params : List Value,
      dget (get_parameters.1.zip params) "head_correction" = none) ∧
    (∀ (sp : Dict) (potR : Value) (d : Dict) (rest : List Value)
       (prev : Option Potential) (pv t1 t2 : Value),
      dget sp "head_correction" = none →
      dget d "potential" = some pv →
      dget d "type1" = some t1 → dget d "type2" = some t2 →
      buildPairs sp potR (Value.dict d :: rest) prev =
        Except.error (Err.attrError "head_correction")) ∧
    (∀ (sp : Dict) (potR : Value) (d : Dict) (rest : List Value)
       (prev : Option Potential) (c t1 t2 : Value),
      dget sp "head_correction" = none →
      dget d "potential" = none →
      dget sp "initial_potential" = some (Value.str "mie") →
      dget sp "potential_cutoff" = some c →
      dget d "type1" = some t1 → dget d "type2" = some t2 →
      buildPairs sp potR (Value.dict d :: rest) prev =
        Except.error (Err.attrError "head_correction")) := by
  refine ⟨by decide, ?_, ?_, ?_⟩
  · intro params
    exact dget_zip_none _ params _ (by decide)
  · intro sp potR d rest prev pv t1 t2 hhc hpot ht1 ht2
    simp [buildPairs, asDict, dGetE, attrGet, hpot, ht1, ht2, hhc,
      ok_bind, error_bind]
  · intro sp potR d rest prev c t1 t2 hhc hpot hfam hcut ht1 ht2
    have hmo : Value.eqStr (Value.str "mie") "morse" = false := by decide
    have hmi : Value.eqStr (Value.str "mie") "mie" = true := by decide
    simp [buildPairs, asDict, dGetE, attrGet, hpot, hfam, hcut, ht1, ht2,
      hhc, hmo, hmi, ok_bind, error_bind]

/-- C9, witness: on a statepoint zipped from the declared names (values
all null), a concrete pair entry with an explicit potential hits the
undefined `head_correction` access. -/
theorem c9_witness :
    dget (get_parameters.1.zip (List.replicate 17 Value.null))
      "head_correction" = none ∧
    buildPairs (get_parameters.1.zip (List.replicate 17 Value.null))
      Value.null [pairPot7] none =
        Except.error (Err.attrError "head_correction") :=
  ⟨c9_head_correction_unguarded.2.1 (List.replicate 17 Value.null),
   c9_head_correction_unguarded.2.2.1
     (get_parameters.1.zip (List.replicate 17 Value.null)) Value.null
     [("type1", Value.str "A"), ("type2", Value.str "A"),
      ("potential", Value.num 7)]
     [] none (Value.num 7) (Value.str "A") (Value.str "A")
     rfl rfl rfl rfl⟩

/-- C10: `"r_min"` is not among the parameter names declared by
`get_parameters`, so every statepoint zipped from those names lacks the
key; the `optimize_pairs` launch reads `job.sp.r_min` unguardedly, so on
any statepoint without the field the launch hits the undefined-field
error, and the operation can never reach a successful Runner return. -/
theorem c10_r_min_unguarded :
    ("r_min" ∉ get_parameters.1) ∧
    (∀ params : List Value,
      dget (get_parameters.1.zip params) "r_min" = none) ∧
    (∀ (sp : Dict) (mf rc : Value),
      dget sp "num_rdf_frames" = some mf →
      dget sp "potential_cutoff" = some rc →
      dget sp "r_min" = none →
      mkRunArgs sp = Except.error (Err.attrError "r_min")) ∧
    (∀ (ext : Ext) (fs : List Path) (ws : Path) (sp doc : Dict),
      dget sp "r_min" = none →
      (optimizeCore ext fs ws sp doc).isOk = false) := by
  refine ⟨by decide, ?_, ?_, ?_⟩
  · intro params
    exact dget_zip_none _ params _ (by decide)
  · intro sp mf rc hmf hrc hrm
    simp [mkRunArgs, attrGet, hmf, hrc, hrm, ok_bind, error_bind]
  · intro ext fs ws sp doc hrm
    cases hok : optimizeCore ext fs ws sp doc with
    | error e => rfl
    | ok a =>
        exfalso
        rw [optimizeCore] at hok
        obtain ⟨_, _, hok⟩ := bind_ok_inv hok
        obtain ⟨_, _, hok⟩ := bind_ok_inv hok
        obtain ⟨_, _, hok⟩ := bind_ok_inv hok
        obtain ⟨_, _, hok⟩ := bind_ok_inv hok
        obtain ⟨_, _, hok⟩ := bind_ok_inv hok
        obtain ⟨_, _, hok⟩ := bind_ok_inv hok
        obtain ⟨_, _, hok⟩ := bind_ok_inv hok
        obtain ⟨_, _, hok⟩ := bind_ok_inv hok
        obtain ⟨_, _, hok⟩ := bind_ok_inv hok
        obtain ⟨_, _, hok⟩ := bind_ok_inv hok
        obtain ⟨_, _, hok⟩ := bind_ok_inv hok
        obtain ⟨ra, hra, hok⟩ := bind_ok_inv hok
        rw [mkRunArgs] at hra
        obtain ⟨_, _, hra⟩ := bind_ok_inv hra
        obtain ⟨_, _, hra⟩ := bind_ok_inv hra
        obtain ⟨rm, hrm2, _⟩ := bind_ok_inv hra
        simp only [attrGet, hrm] at hrm2
        exact Except.noConfusion hrm2

/-- C10, witness: a statepoint with the RDF fields present but no
`r_min` makes the launch fail with the undefined-field error, and on a
statepoint zipped from the declared names the operation never succeeds. -/
theorem c10_witness :
    mkRunArgs [("num_rdf_frames", Value.num 5),
               ("potential_cutoff", Value.num 5)] =
      Except.error (Err.attrError "r_min") ∧
    (optimizeCore extOk fsRef wsJob
      (get_parameters.1.zip (List.replicate 17 Value.null)) docOk).isOk
      = false :=
  ⟨c10_r_min_unguarded.2.2.1
     [("num_rdf_frames", Value.num 5), ("potential_cutoff", Value.num 5)]
     (Value.num 5) (Value.num 5) rfl rfl rfl,
   c10_r_min_unguarded.2.2.2 extOk fsRef wsJob
     (get_parameters.1.zip (List.replicate 17 Value.null)) docOk rfl⟩

/-- C3: each state entry's target trajectory resolves to the declared
relative path under the directory two levels above the job's workspace;
when that file exists the State descriptor is built from it, and when it
does not the state loop fails with the state-resolution error — and on a
concrete statepoint naming a missing trajectory the whole operation
fails with that error before the Runner is consulted (for every
external world, whatever its run outcome, the result is the
state-resolution error and the document log ends at `done = false`).
The existence check itself is modelled from the spec, since it lives in
the external State constructor. -/
theorem c3_state_resolution (fs : List Path) (root : Path) (a b : String)
    (d : Dict) (rest : List Value) (rel : String) (nm kT al : Value)
    (hroot : ".." ∉ root) (ha : a ≠ "..") (hb : b ≠ "..") (hrel : rel ≠ "..")
    (htt : dget d "target_trajectory" = some (Value.str rel))
    (hnm : dget d "name" = some nm) (hkT : dget d "kT" = some kT)
    (hal : dget d "alpha" = some al) :
    resolveTraj (root ++ [a, b]) rel = root ++ [rel] ∧
    (root ++ [rel] ∈ fs →
      buildStates fs (root ++ [a, b]) (Value.dict d :: rest) =
        (do
          let ss ← buildStates fs (root ++ [a, b]) rest
          Except.ok ({ name := nm, kT := kT, traj_file := root ++ [rel],
                       alpha := al } :: ss))) ∧
    (root ++ [rel] ∉ fs →
      buildStates fs (root ++ [a, b]) (Value.dict d :: rest) =
        Except.error (Err.stateResolutionError (root ++ [rel]))) ∧
    (∀ ext : Ext, optimize ext fsRef wsJob spMissing docOk =
      ([("done", Value.bool false)],
       Except.error (Err.stateResolutionError ["proj", "missing.gsd"]))) := by
  have hres := resolveTraj_two_up root a b rel hroot ha hb hrel
  refine ⟨hres, ?_, ?_, fun ext => rfl⟩
  · intro hmem
    simp [buildStates, asDict, dGetE, asStr, htt, hnm, hkT, hal, hres, hmem,
      ok_bind]
  · intro hmem
    simp [buildStates, asDict, dGetE, asStr, htt, hnm, hkT, hal, hres, hmem,
      ok_bind, error_bind]

/-- C3, witness: the concrete job workspace `proj/workspace/job1`
resolves `ref.gsd` to `proj/ref.gsd`, which exists, so the state loop
builds the descriptor; the same loop on the missing `missing.gsd` fails
with the state-resolution error. -/
theorem c3_witness :
    buildStates fsRef wsJob [stateA] =
      Except.ok [{ name := Value.str "A", kT := Value.num 1,
                   traj_file := ["proj", "ref.gsd"], alpha := Value.num 1 }] ∧
    optimize extOk fsRef wsJob spMissing docOk =
      ([("done", Value.bool false)],
       Except.error (Err.stateResolutionError ["proj", "missing.gsd"])) := by
  have h := c3_state_resolution fsRef ["proj"] "workspace" "job1"
    [("name", Value.str "A"), ("kT", Value.num 1),
     ("target_trajectory", Value.str "ref.gsd"), ("alpha", Value.num 1)]
    [] "ref.gsd" (Value.str "A") (Value.num 1) (Value.num 1)
    (by decide) (by decide) (by decide) (by decide) rfl rfl rfl rfl
  refine ⟨?_, h.2.2.2 extOk⟩
  have h2 := h.2.1 (by simp [fsRef])
  exact h2

/-- C6: when the statepoint declares `bonds = None`, the problem handed
to the Runner contains no Bond descriptors; when it declares a list,
each entry yields exactly one Bond descriptor, carrying the given
`(k, r0)` exactly when the entry's form is `"harmonic"`, while entries
of any other form are retained without interaction parameters. -/
theorem c6_bond_descriptors :
    (∀ (ext : Ext) (fs : List Path) (ws : Path) (sp doc : Dict)
       (a : Assembled),
      dget sp "bonds" = some Value.null →
      optimizeCore ext fs ws sp doc = Except.ok a → a.opt.bonds = []) ∧
    (∀ (d : Dict) (rest : List Value) (t1 t2 k r0 : Value),
      dget d "type1" = some t1 → dget d "type2" = some t2 →
      dget d "form" = some (Value.str "harmonic") →
      dget d "k" = some k → dget d "r0" = some r0 →
      buildBonds (Value.dict d :: rest) =
        (do
          let bs ← buildBonds rest
          Except.ok ({ type1 := t1, type2 := t2,
                       harmonic := some (k, r0) } :: bs))) ∧
    (∀ (d : Dict) (rest : List Value) (t1 t2 f : Value),
      dget d "type1" = some t1 → dget d "type2" = some t2 →
      dget d "form" = some f → Value.eqStr f "harmonic" = false →
      buildBonds (Value.dict d :: rest) =
        (do
          let bs ← buildBonds rest
          Except.ok ({ type1 := t1, type2 := t2,
                       harmonic := none } :: bs))) ∧
    (∀ (entries : List Value) (bs : List BondD),
      buildBonds entries = Except.ok bs → bs.length = entries.length) := by
  refine ⟨?_, ?_, ?_, buildBonds_length⟩
  · intro ext fs ws sp doc a hnull hok
    rw [optimizeCore] at hok
    obtain ⟨_, _, hok⟩ := bind_ok_inv hok
    obtain ⟨_, _, hok⟩ := bind_ok_inv hok
    obtain ⟨_, _, hok⟩ := bind_ok_inv hok
    obtain ⟨_, _, hok⟩ := bind_ok_inv hok
    obtain ⟨_, _, hok⟩ := bind_ok_inv hok
    obtain ⟨_, _, hok⟩ := bind_ok_inv hok
    obtain ⟨_, _, hok⟩ := bind_ok_inv hok
    obtain ⟨bondsV, hbv, hok⟩ := bind_ok_inv hok
    simp only [attrGet, hnull] at hbv
    obtain ⟨bonds, hbb, hok⟩ := bind_ok_inv hok
    cases hbv
    simp only [ifNotNull] at hbb
    cases hbb
    obtain ⟨_, _, hok⟩ := bind_ok_inv hok
    obtain ⟨_, _, hok⟩ := bind_ok_inv hok
    obtain ⟨_, _, hok⟩ := bind_ok_inv hok
    split at hok
    · cases hok
      rfl
    · exact Except.noConfusion hok
  · intro d rest t1 t2 k r0 ht1 ht2 hform hk hr0
    have hh : Value.eqStr (Value.str "harmonic") "harmonic" = true := by decide
    simp [buildBonds, bondHarmonic, asDict, dGetE, ht1, ht2, hform, hk, hr0,
      hh, ok_bind]
  · intro d rest t1 t2 f ht1 ht2 hform hf
    simp [buildBonds, bondHarmonic, asDict, dGetE, ht1, ht2, hform, hf,
      ok_bind]

/-- C6, witness: the full operation on the well-formed statepoint with
`bonds = None` succeeds with no Bond descriptors, and the bond loop on
one concrete harmonic entry and one concrete `"fene"` entry yields
exactly one descriptor each, with and without parameters. -/
theorem c6_witness :
    ((optimizeCore extOk fsRef wsJob spOk docOk).map
      (fun a => a.opt.bonds)).isOk = true ∧
    buildBonds [Value.dict
        [("type1", Value.str "A"), ("type2", Value.str "B"),
         ("form", Value.str "harmonic"), ("k", Value.num 100),
         ("r0", Value.num 1)],
      Value.dict
        [("type1", Value.str "B"), ("type2", Value.str "B"),
         ("form", Value.str "fene")]] =
      Except.ok [{ type1 := Value.str "A", type2 := Value.str "B",
                   harmonic := some (Value.num 100, Value.num 1) },
                 { type1 := Value.str "B", type2 := Value.str "B",
                   harmonic := none }] := by
  constructor
  · rfl
  · have h1 := c6_bond_descriptors.2.1
      [("type1", Value.str "A"), ("type2", Value.str "B"),
       ("form", Value.str "harmonic"), ("k", Value.num 100),
       ("r0", Value.num 1)]
      [Value.dict [("type1", Value.str "B"), ("type2", Value.str "B"),
        ("form", Value.str "fene")]]
      (Value.str "A") (Value.str "B") (Value.num 100) (Value.num 1)
      rfl rfl rfl rfl rfl
    have h2 := c6_bond_descriptors.2.2.1
      [("type1", Value.str "B"), ("type2", Value.str "B"),
       ("form", Value.str "fene")] []
      (Value.str "B") (Value.str "B") (Value.str "fene")
      rfl rfl rfl (by decide)
    rw [h1, h2]
    rfl

/-- C7: the `done` flag follows NOT_STARTED -> IN_PROGRESS -> COMPLETE: a
document with no `done` key reports not-completed; a document with
`done = true` satisfies the post-condition, so the operation is skipped
on re-invocation; the operation's first document write is always
`done = false`; on any failure the log stops there (so `done = true` is
never written before a successful Runner return); and on success the
log writes `dr` and `pot_r` before the final `done = true` — indeed
`done = true` appears in the log exactly when the run succeeded. -/
theorem c7_done_lifecycle :
    completed [] = false ∧
    (∀ doc : Dict, completed (("done", Value.bool true) :: doc) = true ∧
      eligible (("done", Value.bool true) :: doc) = false) ∧
    (∀ (ext : Ext) (fs : List Path) (ws : Path) (sp doc : Dict),
      (optimize ext fs ws sp doc).1.head? =
        some ("done", Value.bool false) ∧
      (∀ e, (optimize ext fs ws sp doc).2 = Except.error e →
        (optimize ext fs ws sp doc).1 = [("done", Value.bool false)]) ∧
      (∀ a, (optimize ext fs ws sp doc).2 = Except.ok a →
        (optimize ext fs ws sp doc).1 =
          [("done", Value.bool false), ("dr", ext.drOut),
           ("pot_r", ext.potROut), ("done", Value.bool true)]) ∧
      ((("done", Value.bool true) ∈ (optimize ext fs ws sp doc).1) ↔
        (optimize ext fs ws sp doc).2.isOk = true)) := by
  refine ⟨rfl, fun doc => ⟨rfl, rfl⟩, ?_⟩
  intro ext fs ws sp doc
  cases h : optimizeCore ext fs ws sp doc with
  | error e =>
      refine ⟨by simp [optimize, h], fun e' _ => by simp [optimize, h],
        fun a ha => ?_, ?_⟩
      · rw [optimize, h] at ha
        exact Except.noConfusion ha
      · simp [optimize, h, Except.isOk, Except.toBool]
  | ok a =>
      refine ⟨by simp [optimize, h], fun e' he => ?_,
        fun a' _ => by simp [optimize, h], ?_⟩
      · rw [optimize, h] at he
        exact Except.noConfusion he
      · simp [optimize, h, Except.isOk, Except.toBool]

/-- C7, witness: on the well-formed statepoint the run succeeds and the
log ends with `done = true`; on an empty statepoint the run fails at the
first hyperparameter read and the log is exactly `[done = false]`. -/
theorem c7_witness :
    (("done", Value.bool true) ∈ (optimize extOk fsRef wsJob spOk docOk).1) ∧
    (optimize extOk fsRef wsJob [] docOk).1 = [("done", Value.bool false)] :=
  ⟨((c7_done_lifecycle.2.2 extOk fsRef wsJob spOk docOk).2.2.2).mpr rfl,
   (c7_done_lifecycle.2.2 extOk fsRef wsJob [] docOk).2.1
     (Err.attrError "integrator") rfl⟩

/-- C2: evaluated at the failing input — a statepoint whose angles list
holds one harmonic entry — the operation succeeds and the angle loop
builds the Angle descriptor with its `(k, theta0)` parameters, but the
problem handed to the Runner contains no Angle descriptors at all: the
source never calls `add_angle`, so every built Angle is discarded. -/
theorem c2_angles_never_added :
    (optimizeCore extOk fsRef wsJob spAngles docOk).map
        (fun a => (a.builtAngles, a.opt.angles)) =
      Except.ok
        ([{ type1 := Value.str "A", type2 := Value.str "A",
            type3 := Value.str "A",
            harmonic := some (Value.num 100, Value.num 110) }],
         ([] : List AngleD)) := rfl

end MsibiFlow
